import Mathlib

/-!
Shallow embedding of `restposten-mongodb` (file `index.js` of the repository,
a thin wrapper around the node-mongodb-native driver) and proofs about it.

The embedding models:
  - the JS values that can occur in an `_id` slot and in option objects;
  - `fixID`, the identifier-coercion helper;
  - each public operation (`connect`, `DB.getCollection`, `Collection.find`,
    `findOne`, `save`, `update`, `delete`, `count`) as a function from its
    possible argument shapes (JS variadic arities are an explicit inductive)
    to the call it forwards to the underlying driver;
  - a heap-based rendering of the same operations, making the in-place
    mutation performed by `fixID` on the caller's argument object observable;
  - a store model of the external driver's save/findOne semantics, taken
    from the specification (the driver itself is an external dependency).
-/

/-- The universe of JS values relevant to the wrapper: `_id` slots, option
entries and record fields.  `objectId s` is the driver's native ObjectID as
produced by `mongo.ObjectID.createFromHexString(s)`. -/
inductive JSValue where
  | undef
  | null
  | bool : Bool → JSValue
  | num : Int → JSValue
  | str : String → JSValue
  | objectId : String → JSValue
deriving DecidableEq

/-- A JS object as the wrapper sees it: the `_id` field (`JSValue.undef` when
absent) and the remaining properties. -/
structure JSObject where
  _id : JSValue
  rest : List (String × JSValue)
deriving DecidableEq

/-- An options object: its `safe` property (`JSValue.undef` when absent) and
the remaining properties. -/
structure JSOptions where
  safe : JSValue
  rest : List (String × JSValue)
deriving DecidableEq

/-- The empty object literal used as a default when an options argument is
omitted. -/
def emptyOptions : JSOptions := ⟨JSValue.undef, []⟩

/-- `options.safe = true;` as it appears in `save`, `update`, `delete` and
`count`. -/
def setSafe (o : JSOptions) : JSOptions := { o with safe := JSValue.bool true }

/-- One character of the character class `[0-9A-F]` with the `i` flag, i.e.
`[0-9A-Fa-f]`. -/
def hexDigit (c : Char) : Bool :=
  ('0' ≤ c && c ≤ '9') || ('a' ≤ c && c ≤ 'f') || ('A' ≤ c && c ≤ 'F')

/-- The test `/^[0-9A-F]{24}$/i.test(s)`: exactly 24 characters, each a hex
digit of either case. -/
def isHex24 (s : String) : Bool :=
  s.data.length == 24 && s.data.all hexDigit

/-- `fixID(query)`: if `query._id` is a string and matches
`/^[0-9A-F]{24}$/i`, replace it with
`mongo.ObjectID.createFromHexString(query._id)`; otherwise leave the object
untouched. -/
def fixID (q : JSObject) : JSObject :=
  match q._id with
  | JSValue.str s => if isHex24 s then { q with _id := JSValue.objectId s } else q
  | _ => q

/-- A projection (fields) argument. -/
abbrev Fields := List String

/-- Completion callbacks are opaque; each is identified by a token. -/
abbrev Callback := Nat

/-- Argument shapes of `Collection.prototype.find(query, fields, options,
callback)`: the source distinguishes arities 2, 3 and 4. -/
inductive FindArgs where
  | two : JSObject → Callback → FindArgs
  | three : JSObject → JSOptions → Callback → FindArgs
  | four : JSObject → Fields → JSOptions → Callback → FindArgs
deriving DecidableEq

/-- The query object the caller passed to `find`. -/
def FindArgs.query : FindArgs → JSObject
  | FindArgs.two q _ => q
  | FindArgs.three q _ _ => q
  | FindArgs.four q _ _ _ => q

/-- The call `find` forwards to the driver: `_coll.find(query, options)` or
`_coll.find(query, fields, options)`, with `.toArray(callback)`. -/
structure FindCall where
  query : JSObject
  fields : Option Fields
  options : JSOptions
  callback : Callback
deriving DecidableEq

/-- `Collection.prototype.find`: at arity 2 the second argument is the
callback (`fields = null`, `options = {}`); at arity 3 the second argument is
treated as `options` (`fields = null`); then `fixID(query)` runs and the
driver call is issued. -/
def Collection.find : FindArgs → FindCall
  | FindArgs.two q cb => ⟨fixID q, none, emptyOptions, cb⟩
  | FindArgs.three q o cb => ⟨fixID q, none, o, cb⟩
  | FindArgs.four q f o cb => ⟨fixID q, some f, o, cb⟩

/-- Argument shapes of `Collection.prototype.findOne`, identical in shape to
`find`. -/
inductive FindOneArgs where
  | two : JSObject → Callback → FindOneArgs
  | three : JSObject → JSOptions → Callback → FindOneArgs
  | four : JSObject → Fields → JSOptions → Callback → FindOneArgs
deriving DecidableEq

/-- The query object the caller passed to `findOne`. -/
def FindOneArgs.query : FindOneArgs → JSObject
  | FindOneArgs.two q _ => q
  | FindOneArgs.three q _ _ => q
  | FindOneArgs.four q _ _ _ => q

/-- The call `findOne` forwards to the driver: `_coll.findOne(query, options,
callback)` or `_coll.findOne(query, fields, options, callback)`. -/
structure FindOneCall where
  query : JSObject
  fields : Option Fields
  options : JSOptions
  callback : Callback
deriving DecidableEq

/-- `Collection.prototype.findOne`: same arity normalization as `find`,
then `fixID(query)` and the driver call. -/
def Collection.findOne : FindOneArgs → FindOneCall
  | FindOneArgs.two q cb => ⟨fixID q, none, emptyOptions, cb⟩
  | FindOneArgs.three q o cb => ⟨fixID q, none, o, cb⟩
  | FindOneArgs.four q f o cb => ⟨fixID q, some f, o, cb⟩

/-- Argument shapes of `Collection.prototype.save(record, options,
callback)`: arities 2 and 3. -/
inductive SaveArgs where
  | two : JSObject → Callback → SaveArgs
  | three : JSObject → JSOptions → Callback → SaveArgs
deriving DecidableEq

/-- The record the caller passed to `save`. -/
def SaveArgs.record : SaveArgs → JSObject
  | SaveArgs.two r _ => r
  | SaveArgs.three r _ _ => r

/-- The call `save` forwards: `_coll.save(record, options, callback)`. -/
structure SaveCall where
  record : JSObject
  options : JSOptions
  callback : Callback
deriving DecidableEq

/-- `Collection.prototype.save`: at arity 2, `options = {}`; then
`options.safe = true`, `fixID(record)`, and the driver call. -/
def Collection.save : SaveArgs → SaveCall
  | SaveArgs.two r cb => ⟨fixID r, setSafe emptyOptions, cb⟩
  | SaveArgs.three r o cb => ⟨fixID r, setSafe o, cb⟩

/-- Argument shapes of `Collection.prototype.update(criteria, record,
options, callback)`: arities 3 and 4. -/
inductive UpdateArgs where
  | three : JSObject → JSObject → Callback → UpdateArgs
  | four : JSObject → JSObject → JSOptions → Callback → UpdateArgs
deriving DecidableEq

/-- The criteria object the caller passed to `update`. -/
def UpdateArgs.criteria : UpdateArgs → JSObject
  | UpdateArgs.three c _ _ => c
  | UpdateArgs.four c _ _ _ => c

/-- The replacement record the caller passed to `update`. -/
def UpdateArgs.record : UpdateArgs → JSObject
  | UpdateArgs.three _ r _ => r
  | UpdateArgs.four _ r _ _ => r

/-- The call `update` forwards: `_coll.update(criteria, record, options,
callback)`. -/
structure UpdateCall where
  criteria : JSObject
  record : JSObject
  options : JSOptions
  callback : Callback
deriving DecidableEq

/-- `Collection.prototype.update`: at arity 3, `options = {}`; then
`options.safe = true`, `fixID(record)` (the criteria object is not touched),
and the driver call. -/
def Collection.update : UpdateArgs → UpdateCall
  | UpdateArgs.three c r cb => ⟨c, fixID r, setSafe emptyOptions, cb⟩
  | UpdateArgs.four c r o cb => ⟨c, fixID r, setSafe o, cb⟩

/-- Argument shapes of `Collection.prototype.delete(query, options,
callback)`: arities 2 and 3. -/
inductive DeleteArgs where
  | two : JSObject → Callback → DeleteArgs
  | three : JSObject → JSOptions → Callback → DeleteArgs
deriving DecidableEq

/-- The query the caller passed to `delete`. -/
def DeleteArgs.query : DeleteArgs → JSObject
  | DeleteArgs.two q _ => q
  | DeleteArgs.three q _ _ => q

/-- The call `delete` forwards: `_coll.remove(query, options, callback)`. -/
structure DeleteCall where
  query : JSObject
  options : JSOptions
  callback : Callback
deriving DecidableEq

/-- `Collection.prototype.delete`: at arity 2, `options = {}`; then
`options.safe = true`, `fixID(query)`, and the driver call. -/
def Collection.delete : DeleteArgs → DeleteCall
  | DeleteArgs.two q cb => ⟨fixID q, setSafe emptyOptions, cb⟩
  | DeleteArgs.three q o cb => ⟨fixID q, setSafe o, cb⟩

/-- A value occupying the driver's `query` parameter slot: either an object
or (after the arity-1 slip in `count`) the caller's callback function. -/
inductive Arg where
  | obj : JSObject → Arg
  | fn : Callback → Arg
deriving DecidableEq

/-- Argument shapes of `Collection.prototype.count(query, options,
callback)`: arities 1, 2 and 3. -/
inductive CountArgs where
  | one : Callback → CountArgs
  | two : JSObject → Callback → CountArgs
  | three : JSObject → JSOptions → Callback → CountArgs
deriving DecidableEq

/-- The call `count` forwards: `_coll.count(query, options, callback)`.  The
callback slot is `none` when the JS variable `callback` is `undefined`. -/
structure CountCall where
  query : Arg
  options : JSOptions
  callback : Option Callback
deriving DecidableEq

/-- `Collection.prototype.count`.  At arity 2, `callback = options` picks up
the second argument and `options = {}`.  At arity 1 the source also runs
`callback = options`, but there `options` is `undefined`, so the forwarded
callback is `undefined` while the caller's function stays in the `query`
parameter; `fixID` on a function finds no string `_id` and leaves it alone. -/
def Collection.count : CountArgs → CountCall
  | CountArgs.one f => ⟨Arg.fn f, setSafe emptyOptions, none⟩
  | CountArgs.two q cb => ⟨Arg.obj (fixID q), setSafe emptyOptions, some cb⟩
  | CountArgs.three q o cb => ⟨Arg.obj (fixID q), setSafe o, some cb⟩

/-- The recognized entries of the options object passed to `connect`. -/
structure ConnectOptions where
  host : Option String
  port : Option Int
  name : Option String
  rest : List (String × JSValue)
deriving DecidableEq

/-- Argument shapes of `exports.connect(options, callback)`: arity 1 (a lone
callback) and arity 2. -/
inductive ConnectArgs where
  | one : Callback → ConnectArgs
  | two : ConnectOptions → Callback → ConnectArgs
deriving DecidableEq

/-- The state `connect` builds before opening the connection: the server
configuration handed to `mongo.Server` / `mongo.Db`, and the value of the
local `callback` variable (`none` when it is `undefined`). -/
structure ConnectState where
  host : String
  port : Int
  strict : Bool
  safe : Bool
  dbName : Option String
  callback : Option Callback
deriving DecidableEq

/-- `options.host || 'localhost'` (the empty string is falsy in JS). -/
def hostOrDefault : Option String → String
  | none => "localhost"
  | some s => if s = "" then "localhost" else s

/-- `options.port || 27017` (`0` is falsy in JS). -/
def portOrDefault : Option Int → Int
  | none => 27017
  | some p => if p = 0 then 27017 else p

/-- `exports.connect`.  At arity 1 the source runs `callback == options` — a
comparison, not an assignment — so the caller's function is discarded, the
`callback` variable stays `undefined`, and `options = {}` makes every default
apply.  At arity 2 both variables are bound normally.  In both cases
`options.strict = false` and `options.safe = true` are forced. -/
def connect : ConnectArgs → ConnectState
  | ConnectArgs.one _ =>
      ⟨"localhost", 27017, false, true, none, none⟩
  | ConnectArgs.two o cb =>
      ⟨hostOrDefault o.host, portOrDefault o.port, false, true, o.name, some cb⟩

/-- The outcome the underlying client reports to the `open` completion
handler: an error or an open connection (both opaque tokens). -/
inductive OpenOutcome where
  | failure : Nat → OpenOutcome
  | success : Nat → OpenOutcome
deriving DecidableEq

/-- What happens when the `open` handler runs: either some callback `f` is
invoked with `(err, db)` — `db` is the `DB` wrapper around the connection —
or the handler attempts to call `undefined` and throws a TypeError. -/
inductive HandlerResult where
  | invoked : Callback → Option Nat → Option Nat → HandlerResult
  | typeError : HandlerResult
deriving DecidableEq

/-- The body of the handler passed to `dbConnector.open`: `if (err) return
callback(err); callback(null, new DB(conn));`.  Calling an `undefined`
callback throws. -/
def openHandler (cb : Option Callback) (out : OpenOutcome) : HandlerResult :=
  match cb with
  | none => HandlerResult.typeError
  | some f =>
    match out with
    | OpenOutcome.failure e => HandlerResult.invoked f (some e) none
    | OpenOutcome.success conn => HandlerResult.invoked f none (some conn)

/-- Argument shapes of `DB.prototype.getCollection(name, indexes, callback)`:
arity 2 (no index list, the source sets `indexes = null`) and arity 3, where
the index list may be `null` (`none`) or an array. -/
inductive GetCollArgs where
  | two : String → Callback → GetCollArgs
  | three : String → Option (List JSValue) → Callback → GetCollArgs
deriving DecidableEq

/-- The collection name passed to `getCollection`. -/
def GetCollArgs.name : GetCollArgs → String
  | GetCollArgs.two n _ => n
  | GetCollArgs.three n _ _ => n

/-- The index list after arity normalization (`null` at arity 2). -/
def GetCollArgs.indexes : GetCollArgs → Option (List JSValue)
  | GetCollArgs.two _ _ => none
  | GetCollArgs.three _ ixs _ => ixs

/-- The caller's callback after arity normalization. -/
def GetCollArgs.callback : GetCollArgs → Callback
  | GetCollArgs.two _ cb => cb
  | GetCollArgs.three _ _ cb => cb

/-- The arguments a `getCollection` callback receives: an error, or the
`Collection` wrapper `new Collection(name, coll)`. -/
inductive CallbackArgs where
  | err : Nat → CallbackArgs
  | ok : String → Nat → CallbackArgs
deriving DecidableEq

/-- Observable events of one `getCollection` call, in program order.  An
`ensureIndexRequested` event is the issuing of `coll.ensureIndex(index,
function() {})`; its completion handler is that no-op function, so the
matching `ensureIndexCompleted` event (carrying the driver's error, if any)
triggers nothing further.  Completions are asynchronous, hence they can only
run after the synchronous block that issues the requests and invokes the
caller's callback. -/
inductive Event where
  | ensureIndexRequested : JSValue → Event
  | gotCallback : Callback → CallbackArgs → Event
  | ensureIndexCompleted : JSValue → Option Nat → Event
deriving DecidableEq

/-- `DB.prototype.getCollection`, as the trace of events produced for a given
outcome `collRes` of `this._db.collection(name, ...)` and a given outcome
`ixErr` of each index-ensure request. -/
def DB.getCollection (a : GetCollArgs) (collRes : Except Nat Nat)
    (ixErr : JSValue → Option Nat) : List Event :=
  match collRes with
  | Except.error e => [Event.gotCallback a.callback (CallbackArgs.err e)]
  | Except.ok coll =>
    match a.indexes with
    | none => [Event.gotCallback a.callback (CallbackArgs.ok a.name coll)]
    | some ixs =>
      match ixs with
      | [] => [Event.gotCallback a.callback (CallbackArgs.ok a.name coll)]
      | _ =>
        ixs.map Event.ensureIndexRequested
          ++ Event.gotCallback a.callback (CallbackArgs.ok a.name coll)
            :: ixs.map (fun i => Event.ensureIndexCompleted i (ixErr i))

/-- A heap of JS objects; an address is an index.  JS passes objects by
reference, so the wrapper's `fixID(query)` mutates the caller's own object. -/
abbrev Heap := List JSObject

/-- `fixID` acting on the heap: the object at `addr` is updated in place. -/
def fixIDH (h : Heap) (addr : Nat) : Heap :=
  match h.get? addr with
  | some q => h.set addr (fixID q)
  | none => h

/-- Heap-level argument shapes of `find` (and `findOne`, whose argument
handling is identical): the query is an address into the heap. -/
inductive FindArgsH where
  | two : Nat → Callback → FindArgsH
  | three : Nat → JSOptions → Callback → FindArgsH
  | four : Nat → Fields → JSOptions → Callback → FindArgsH
deriving DecidableEq

/-- The address of the caller's query object. -/
def FindArgsH.queryAddr : FindArgsH → Nat
  | FindArgsH.two q _ => q
  | FindArgsH.three q _ _ => q
  | FindArgsH.four q _ _ _ => q

/-- The heap-level driver call of `find`: the driver receives a reference to
the very object the caller passed. -/
structure FindCallH where
  queryAddr : Nat
  fields : Option Fields
  options : JSOptions
  callback : Callback
deriving DecidableEq

/-- `Collection.prototype.find` on the heap: `fixID(query)` mutates the
object at the query address, then that same reference is forwarded. -/
def Collection.findH (h : Heap) : FindArgsH → Heap × FindCallH
  | FindArgsH.two q cb => (fixIDH h q, ⟨q, none, emptyOptions, cb⟩)
  | FindArgsH.three q o cb => (fixIDH h q, ⟨q, none, o, cb⟩)
  | FindArgsH.four q f o cb => (fixIDH h q, ⟨q, some f, o, cb⟩)

/-- `Collection.prototype.findOne` on the heap; argument handling and the
mutation are the same as for `find`. -/
def Collection.findOneH (h : Heap) : FindArgsH → Heap × FindCallH
  | FindArgsH.two q cb => (fixIDH h q, ⟨q, none, emptyOptions, cb⟩)
  | FindArgsH.three q o cb => (fixIDH h q, ⟨q, none, o, cb⟩)
  | FindArgsH.four q f o cb => (fixIDH h q, ⟨q, some f, o, cb⟩)

/-- Heap-level argument shapes of `save` (and `delete`, identical shape). -/
inductive SaveArgsH where
  | two : Nat → Callback → SaveArgsH
  | three : Nat → JSOptions → Callback → SaveArgsH
deriving DecidableEq

/-- The address of the caller's record (or query, for `delete`). -/
def SaveArgsH.recordAddr : SaveArgsH → Nat
  | SaveArgsH.two r _ => r
  | SaveArgsH.three r _ _ => r

/-- The heap-level driver call of `save` / `delete`. -/
structure SaveCallH where
  recordAddr : Nat
  options : JSOptions
  callback : Callback
deriving DecidableEq

/-- `Collection.prototype.save` on the heap. -/
def Collection.saveH (h : Heap) : SaveArgsH → Heap × SaveCallH
  | SaveArgsH.two r cb => (fixIDH h r, ⟨r, setSafe emptyOptions, cb⟩)
  | SaveArgsH.three r o cb => (fixIDH h r, ⟨r, setSafe o, cb⟩)

/-- `Collection.prototype.delete` on the heap (forwards to `_coll.remove`). -/
def Collection.deleteH (h : Heap) : SaveArgsH → Heap × SaveCallH
  | SaveArgsH.two q cb => (fixIDH h q, ⟨q, setSafe emptyOptions, cb⟩)
  | SaveArgsH.three q o cb => (fixIDH h q, ⟨q, setSafe o, cb⟩)

/-- Heap-level argument shapes of `update`: criteria and record addresses. -/
inductive UpdateArgsH where
  | three : Nat → Nat → Callback → UpdateArgsH
  | four : Nat → Nat → JSOptions → Callback → UpdateArgsH
deriving DecidableEq

/-- The address of the caller's criteria object. -/
def UpdateArgsH.criteriaAddr : UpdateArgsH → Nat
  | UpdateArgsH.three c _ _ => c
  | UpdateArgsH.four c _ _ _ => c

/-- The address of the caller's replacement record. -/
def UpdateArgsH.recordAddr : UpdateArgsH → Nat
  | UpdateArgsH.three _ r _ => r
  | UpdateArgsH.four _ r _ _ => r

/-- The heap-level driver call of `update`. -/
structure UpdateCallH where
  criteriaAddr : Nat
  recordAddr : Nat
  options : JSOptions
  callback : Callback
deriving DecidableEq

/-- `Collection.prototype.update` on the heap: only the record is mutated by
`fixID`; the criteria reference is forwarded with its object untouched. -/
def Collection.updateH (h : Heap) : UpdateArgsH → Heap × UpdateCallH
  | UpdateArgsH.three c r cb => (fixIDH h r, ⟨c, r, setSafe emptyOptions, cb⟩)
  | UpdateArgsH.four c r o cb => (fixIDH h r, ⟨c, r, setSafe o, cb⟩)

/-- A heap-level value in the driver's `query` slot. -/
inductive ArgH where
  | objAddr : Nat → ArgH
  | fn : Callback → ArgH
deriving DecidableEq

/-- Heap-level argument shapes of `count`. -/
inductive CountArgsH where
  | one : Callback → CountArgsH
  | two : Nat → Callback → CountArgsH
  | three : Nat → JSOptions → Callback → CountArgsH
deriving DecidableEq

/-- The heap-level driver call of `count`. -/
structure CountCallH where
  query : ArgH
  options : JSOptions
  callback : Option Callback
deriving DecidableEq

/-- `Collection.prototype.count` on the heap.  At arity 1 the heap is
unchanged (`fixID` runs on the caller's function, which has no `_id`). -/
def Collection.countH (h : Heap) : CountArgsH → Heap × CountCallH
  | CountArgsH.one f => (h, ⟨ArgH.fn f, setSafe emptyOptions, none⟩)
  | CountArgsH.two q cb => (fixIDH h q, ⟨ArgH.objAddr q, setSafe emptyOptions, some cb⟩)
  | CountArgsH.three q o cb => (fixIDH h q, ⟨ArgH.objAddr q, setSafe o, some cb⟩)

/-- The records held by the external store, in insertion order. -/
abbrev Store := List JSObject

/-- Modelled from the spec: the driver's record-matching used by `findOne` —
a record matches when the query's `_id` (if present) equals the record's
`_id` and every other query field appears among the record's fields.  The
driver itself is the external mongodb client, outside this repository. -/
def recMatches (q r : JSObject) : Bool :=
  (match q._id with
   | JSValue.undef => true
   | qid => decide (r._id = qid))
  && q.rest.all (fun kv => decide (kv ∈ r.rest))

/-- The result the driver's `save` reports: the inserted record, or the
number of overwritten records. -/
inductive SaveResult where
  | inserted : JSObject → SaveResult
  | updated : Nat → SaveResult
deriving DecidableEq

/-- Modelled from the spec: the driver's `save` is an upsert-by-identity —
if a record with the same identifier exists it is fully overwritten
(reporting an update count), otherwise a new record is created, with the
identifier `fresh` generated when the record has none, and the inserted
record is reported.  The driver itself is the external mongodb client. -/
def driverSave (st : Store) (fresh : String) (r : JSObject) : Store × SaveResult :=
  match r._id with
  | JSValue.undef =>
      (st ++ [{ r with _id := JSValue.objectId fresh }],
       SaveResult.inserted { r with _id := JSValue.objectId fresh })
  | _ =>
      if st.any (fun p => p._id = r._id) then
        (st.map (fun p => if p._id = r._id then r else p), SaveResult.updated 1)
      else
        (st ++ [r], SaveResult.inserted r)

/-- Modelled from the spec: the driver's `findOne` returns the first stored
record matching the query, or nothing.  The driver itself is the external
mongodb client. -/
def driverFindOne (st : Store) (q : JSObject) : Option JSObject :=
  st.find? (recMatches q)

/-- The wrapper's `save` composed with the modelled driver: the driver
receives the record exactly as `Collection.save` forwards it. -/
def saveThenDriver (st : Store) (fresh : String) (a : SaveArgs) : Store × SaveResult :=
  driverSave st fresh (Collection.save a).record

/-- The wrapper's `findOne` composed with the modelled driver: the driver
receives the query exactly as `Collection.findOne` forwards it. -/
def findOneThenDriver (st : Store) (a : FindOneArgs) : Option JSObject :=
  driverFindOne st (Collection.findOne a).query

theorem fixID_of_ne_str (q : JSObject) (h : ∀ s, q._id ≠ JSValue.str s) :
    fixID q = q := by
  cases hq : q._id with
  | undef => simp [fixID, hq]
  | null => simp [fixID, hq]
  | bool b => simp [fixID, hq]
  | num n => simp [fixID, hq]
  | str s => exact absurd hq (h s)
  | objectId s => simp [fixID, hq]

theorem get?_set_here (l : List JSObject) (n : Nat) (a b : JSObject)
    (h : l.get? n = some a) : (l.set n b).get? n = some b := by
  induction l generalizing n with
  | nil => simp [List.get?] at h
  | cons x xs ih =>
      cases n with
      | zero => rfl
      | succ m => exact ih m h

theorem find?_drop_unmatched (p : JSObject → Bool) (l1 l2 : List JSObject)
    (h : ∀ x ∈ l1, p x = false) : List.find? p (l1 ++ l2) = List.find? p l2 := by
  induction l1 with
  | nil => rfl
  | cons x xs ih =>
      rw [List.cons_append,
        List.find?_cons_of_neg _ (by simp [h x (List.mem_cons_self x xs)])]
      exact ih (fun y hy => h y (List.mem_cons_of_mem x hy))

/-- C1: for every query or record passed to `find`, `findOne`, `save`,
`update` (the record argument), `delete`, or `count`, the `_id` forwarded to
the underlying store is the native ObjectID built from the hex string exactly
when `_id` is a string of exactly 24 hex characters (case-insensitive); any
other `_id` value, including non-strings, is forwarded unchanged. -/
theorem claim1_id_forwarding :
    (∀ (s : String) (q : JSObject), q._id = JSValue.str s → isHex24 s = true →
        (fixID q)._id = JSValue.objectId s)
  ∧ (∀ (s : String) (q : JSObject), q._id = JSValue.str s → isHex24 s = false →
        (fixID q)._id = JSValue.str s)
  ∧ (∀ (q : JSObject), (∀ s, q._id ≠ JSValue.str s) → (fixID q)._id = q._id)
  ∧ (∀ a : FindArgs, (Collection.find a).query = fixID a.query)
  ∧ (∀ a : FindOneArgs, (Collection.findOne a).query = fixID a.query)
  ∧ (∀ a : SaveArgs, (Collection.save a).record = fixID a.record)
  ∧ (∀ a : UpdateArgs, (Collection.update a).record = fixID a.record)
  ∧ (∀ a : DeleteArgs, (Collection.delete a).query = fixID a.query)
  ∧ (∀ (q : JSObject) (o : JSOptions) (cb : Callback),
        (Collection.count (CountArgs.two q cb)).query = Arg.obj (fixID q)
      ∧ (Collection.count (CountArgs.three q o cb)).query = Arg.obj (fixID q)) := by
  refine ⟨?_, ?_, ?_, ?_, ?_, ?_, ?_, ?_, ?_⟩
  · intro s q hq h24; simp [fixID, hq, h24]
  · intro s q hq h24; simp [fixID, hq, h24]
  · intro q h; rw [fixID_of_ne_str q h]
  · intro a; cases a <;> rfl
  · intro a; cases a <;> rfl
  · intro a; cases a <;> rfl
  · intro a; cases a <;> rfl
  · intro a; cases a <;> rfl
  · intro q o cb; exact ⟨rfl, rfl⟩

/-- Witness for C1 at a concrete 24-hex-character identifier. -/
theorem claim1_witness :
    (fixID ⟨JSValue.str "53c2ab5e4291b17120000001", []⟩)._id
      = JSValue.objectId "53c2ab5e4291b17120000001" :=
  claim1_id_forwarding.1 "53c2ab5e4291b17120000001"
    ⟨JSValue.str "53c2ab5e4291b17120000001", []⟩ rfl (by decide)

/-- C2 (the claim fails on the code): `connect` called with a single argument
runs `callback == options` — a comparison, not an assignment — so although
host and port defaults apply, the `callback` variable stays `undefined`, and
on a successful open the completion handler calls `undefined` (a TypeError)
instead of invoking the caller's function with `(null, DatabaseHandle)`. -/
theorem claim2_connect_single_arg_bug (f conn : Nat) :
    (connect (ConnectArgs.one f)).host = "localhost"
  ∧ (connect (ConnectArgs.one f)).port = 27017
  ∧ (connect (ConnectArgs.one f)).callback = none
  ∧ openHandler (connect (ConnectArgs.one f)).callback (OpenOutcome.success conn)
      = HandlerResult.typeError :=
  ⟨rfl, rfl, rfl, rfl⟩

/-- C3: `getCollection` with a non-empty index list issues one index-ensure
request per entry and invokes the caller's callback with the Collection
handle within the same synchronous block, before any of those requests
completes; each completion lands in the no-op handler, so whatever errors
`ixErr` reports, none ever reaches the `getCollection` callback. -/
theorem claim3_indexes_fire_and_forget (n : String) (ixs : List JSValue)
    (cb coll : Nat) (ixErr : JSValue → Option Nat) (h : ixs ≠ []) :
    DB.getCollection (GetCollArgs.three n (some ixs) cb) (Except.ok coll) ixErr
      = ixs.map Event.ensureIndexRequested
        ++ Event.gotCallback cb (CallbackArgs.ok n coll)
          :: ixs.map (fun i => Event.ensureIndexCompleted i (ixErr i)) := by
  cases ixs with
  | nil => exact absurd rfl h
  | cons i tl => rfl

/-- Witness for C3: one index, whose index-ensure request fails with error 7;
the callback still receives the handle, and only the no-op completion sees
the error. -/
theorem claim3_witness :
    DB.getCollection (GetCollArgs.three "author" (some [JSValue.str "_id"]) 0)
        (Except.ok 5) (fun _ => some 7)
      = [Event.ensureIndexRequested (JSValue.str "_id"),
         Event.gotCallback 0 (CallbackArgs.ok "author" 5),
         Event.ensureIndexCompleted (JSValue.str "_id") (some 7)] := by
  have h := claim3_indexes_fire_and_forget "author" [JSValue.str "_id"] 0 5
    (fun _ => some 7) (by decide)
  simpa using h

/-- C4 (the claim fails on the code): `count` called with only a callback
runs `callback = options` where `options` is `undefined`, so the driver
receives `undefined` in the callback slot and the caller's function in the
query slot; the caller's callback is not forwarded.  At arities 2 and 3 the
callback is forwarded and `safe` is forced on. -/
theorem claim4_count_single_arg_bug (f : Nat) :
    (Collection.count (CountArgs.one f)).callback = none
  ∧ (Collection.count (CountArgs.one f)).query = Arg.fn f
  ∧ (Collection.count (CountArgs.one f)).options.safe = JSValue.bool true
  ∧ (∀ (q : JSObject) (cb : Callback),
        (Collection.count (CountArgs.two q cb)).callback = some cb
      ∧ (Collection.count (CountArgs.two q cb)).options.safe = JSValue.bool true)
  ∧ (∀ (q : JSObject) (o : JSOptions) (cb : Callback),
        (Collection.count (CountArgs.three q o cb)).callback = some cb
      ∧ (Collection.count (CountArgs.three q o cb)).options.safe = JSValue.bool true) :=
  ⟨rfl, rfl, rfl, fun _ _ => ⟨rfl, rfl⟩, fun _ _ _ => ⟨rfl, rfl⟩⟩

/-- C5: every `save`, `update` and `delete`, at every arity and whatever the
caller's options hold, hands the driver an options object whose `safe` flag
is `true`. -/
theorem claim5_safe_forced :
    (∀ a : SaveArgs, (Collection.save a).options.safe = JSValue.bool true)
  ∧ (∀ a : UpdateArgs, (Collection.update a).options.safe = JSValue.bool true)
  ∧ (∀ a : DeleteArgs, (Collection.delete a).options.safe = JSValue.bool true) := by
  refine ⟨?_, ?_, ?_⟩ <;> intro a <;> cases a <;> rfl

/-- C6 (the claim fails on the code in one corner): for a two-argument
`connect` and for every `getCollection`, an error reported by the underlying
client is passed unchanged as the first callback argument with no handle
produced; but for a single-argument `connect` the `callback == options` slip
leaves the callback `undefined`, so the error is not forwarded — the handler
throws a TypeError instead. -/
theorem claim6_connect_error_not_forwarded (e f : Nat) :
    openHandler (connect (ConnectArgs.one f)).callback (OpenOutcome.failure e)
      = HandlerResult.typeError
  ∧ (∀ (o : ConnectOptions) (cb : Callback),
        openHandler (connect (ConnectArgs.two o cb)).callback (OpenOutcome.failure e)
          = HandlerResult.invoked cb (some e) none)
  ∧ (∀ (a : GetCollArgs) (ixErr : JSValue → Option Nat),
        DB.getCollection a (Except.error e) ixErr
          = [Event.gotCallback a.callback (CallbackArgs.err e)]) :=
  ⟨rfl, fun _ _ => rfl, fun _ _ => rfl⟩

/-- C7: `getCollection` with the index list omitted, `null`, or empty invokes
the callback with the Collection handle and issues no index-ensure request
(the trace holds no `ensureIndexRequested` event). -/
theorem claim7_no_index_requests (n : String) (cb coll : Nat)
    (ixErr : JSValue → Option Nat) :
    DB.getCollection (GetCollArgs.two n cb) (Except.ok coll) ixErr
      = [Event.gotCallback cb (CallbackArgs.ok n coll)]
  ∧ DB.getCollection (GetCollArgs.three n none cb) (Except.ok coll) ixErr
      = [Event.gotCallback cb (CallbackArgs.ok n coll)]
  ∧ DB.getCollection (GetCollArgs.three n (some []) cb) (Except.ok coll) ixErr
      = [Event.gotCallback cb (CallbackArgs.ok n coll)] :=
  ⟨rfl, rfl, rfl⟩

/-- C8: saving a record with no `_id` and then calling `findOne` with the
identifier reported by `save` retrieves exactly the saved record, provided
the generated identifier is fresh for the store. -/
theorem claim8_save_findOne_roundtrip (st : Store) (r : JSObject) (fresh : String)
    (cb cb2 : Callback) (hr : r._id = JSValue.undef)
    (hfresh : ∀ x ∈ st, x._id ≠ JSValue.objectId fresh) :
    ∃ saved : JSObject,
      (saveThenDriver st fresh (SaveArgs.two r cb)).2 = SaveResult.inserted saved
      ∧ findOneThenDriver (saveThenDriver st fresh (SaveArgs.two r cb)).1
          (FindOneArgs.two ⟨saved._id, []⟩ cb2) = some saved
      ∧ saved.rest = r.rest := by
  have hfix : fixID r = r :=
    fixID_of_ne_str r (fun s hs => by rw [hr] at hs; cases hs)
  refine ⟨{ r with _id := JSValue.objectId fresh }, ?_, ?_, rfl⟩
  · simp [saveThenDriver, Collection.save, SaveArgs.record, hfix, driverSave, hr]
  · have hsave : (saveThenDriver st fresh (SaveArgs.two r cb)).1
        = st ++ [{ r with _id := JSValue.objectId fresh }] := by
      simp [saveThenDriver, Collection.save, SaveArgs.record, hfix, driverSave, hr]
    have hnone : ∀ x ∈ st,
        recMatches ⟨JSValue.objectId fresh, []⟩ x = false := by
      intro x hx
      simpa [recMatches] using hfresh x hx
    show driverFindOne (saveThenDriver st fresh (SaveArgs.two r cb)).1
        (fixID ⟨JSValue.objectId fresh, []⟩) = _
    rw [hsave]
    show List.find? (recMatches ⟨JSValue.objectId fresh, []⟩)
        (st ++ [{ r with _id := JSValue.objectId fresh }]) = _
    rw [find?_drop_unmatched _ st _ hnone]
    simp [List.find?, recMatches]

/-- Witness for C8: an empty store, the example record `{name: 'pvorb'}` and
a concrete generated identifier. -/
theorem claim8_witness :
    ∃ saved : JSObject,
      (saveThenDriver [] "53c2ab5e4291b17120000001"
          (SaveArgs.two ⟨JSValue.undef, [("name", JSValue.str "pvorb")]⟩ 0)).2
        = SaveResult.inserted saved
      ∧ findOneThenDriver (saveThenDriver [] "53c2ab5e4291b17120000001"
            (SaveArgs.two ⟨JSValue.undef, [("name", JSValue.str "pvorb")]⟩ 0)).1
          (FindOneArgs.two ⟨saved._id, []⟩ 1) = some saved
      ∧ saved.rest = [("name", JSValue.str "pvorb")] :=
  claim8_save_findOne_roundtrip [] ⟨JSValue.undef, [("name", JSValue.str "pvorb")]⟩
    "53c2ab5e4291b17120000001" 0 1 rfl (by simp)

/-- C9: identifier coercion mutates the caller's own argument object in
place: each operation mutates exactly the object at the query/record address
via `fixID` and forwards that same address to the driver, so after the call
the caller's object holds the native ObjectID whenever its `_id` was a
24-hex-character string. -/
theorem claim9_in_place_mutation :
    (∀ (h : Heap) (addr : Nat) (q : JSObject) (s : String),
        h.get? addr = some q → q._id = JSValue.str s → isHex24 s = true →
        (fixIDH h addr).get? addr = some { q with _id := JSValue.objectId s })
  ∧ (∀ (h : Heap) (a : FindArgsH),
        (Collection.findH h a).1 = fixIDH h a.queryAddr
      ∧ (Collection.findH h a).2.queryAddr = a.queryAddr)
  ∧ (∀ (h : Heap) (a : FindArgsH),
        (Collection.findOneH h a).1 = fixIDH h a.queryAddr
      ∧ (Collection.findOneH h a).2.queryAddr = a.queryAddr)
  ∧ (∀ (h : Heap) (a : SaveArgsH),
        (Collection.saveH h a).1 = fixIDH h a.recordAddr
      ∧ (Collection.saveH h a).2.recordAddr = a.recordAddr)
  ∧ (∀ (h : Heap) (a : UpdateArgsH),
        (Collection.updateH h a).1 = fixIDH h a.recordAddr
      ∧ (Collection.updateH h a).2.recordAddr = a.recordAddr)
  ∧ (∀ (h : Heap) (a : SaveArgsH),
        (Collection.deleteH h a).1 = fixIDH h a.recordAddr
      ∧ (Collection.deleteH h a).2.recordAddr = a.recordAddr)
  ∧ (∀ (h : Heap) (q : Nat) (cb : Callback),
        (Collection.countH h (CountArgsH.two q cb)).1 = fixIDH h q
      ∧ (Collection.countH h (CountArgsH.two q cb)).2.query = ArgH.objAddr q)
  ∧ (∀ (h : Heap) (q : Nat) (o : JSOptions) (cb : Callback),
        (Collection.countH h (CountArgsH.three q o cb)).1 = fixIDH h q
      ∧ (Collection.countH h (CountArgsH.three q o cb)).2.query = ArgH.objAddr q) := by
  refine ⟨?_, ?_, ?_, ?_, ?_, ?_, ?_, ?_⟩
  · intro h addr q s hget hid h24
    have hfix : fixID q = { q with _id := JSValue.objectId s } := by
      simp [fixID, hid, h24]
    simp only [fixIDH, hget, hfix]
    exact get?_set_here h addr q _ hget
  · intro h a; cases a <;> exact ⟨rfl, rfl⟩
  · intro h a; cases a <;> exact ⟨rfl, rfl⟩
  · intro h a; cases a <;> exact ⟨rfl, rfl⟩
  · intro h a; cases a <;> exact ⟨rfl, rfl⟩
  · intro h a; cases a <;> exact ⟨rfl, rfl⟩
  · intro h q cb; exact ⟨rfl, rfl⟩
  · intro h q o cb; exact ⟨rfl, rfl⟩

/-- Witness for C9: a one-object heap whose object carries a 24-hex-character
string `_id`; after `fixID` runs on its address, the caller's object holds
the ObjectID. -/
theorem claim9_witness :
    (fixIDH [⟨JSValue.str "53c2ab5e4291b17120000001", []⟩] 0).get? 0
      = some ⟨JSValue.objectId "53c2ab5e4291b17120000001", []⟩ :=
  claim9_in_place_mutation.1 [⟨JSValue.str "53c2ab5e4291b17120000001", []⟩] 0
    ⟨JSValue.str "53c2ab5e4291b17120000001", []⟩ "53c2ab5e4291b17120000001"
    rfl rfl (by decide)

/-- C10: `update` forwards the criteria object exactly as given — in
particular a 24-hex-character string `_id` inside the criteria reaches the
driver as the raw string; only the replacement record goes through `fixID`. -/
theorem claim10_update_criteria_raw :
    (∀ a : UpdateArgs, (Collection.update a).criteria = a.criteria)
  ∧ (∀ (s : String) (other : List (String × JSValue)) (r : JSObject)
        (o : JSOptions) (cb : Callback),
        (Collection.update (UpdateArgs.three ⟨JSValue.str s, other⟩ r cb)).criteria._id
          = JSValue.str s
      ∧ (Collection.update (UpdateArgs.four ⟨JSValue.str s, other⟩ r o cb)).criteria._id
          = JSValue.str s) := by
  constructor
  · intro a; cases a <;> rfl
  · intro s other r o cb; exact ⟨rfl, rfl⟩
